import Mathlib

/-!
Verification of the blaze symbolic table-expression layer.

The development shallowly embeds the two source files of the repository:

* `blaze/expr/table.py` — the expression node model (`TableSymbol`,
  `Projection`, `Column`, `Selection`, `ColumnWise`, `Join`, `Reduction`,
  `By`, `Sort`, `Distinct`, `Head`, `Label`, `ReLabel`, `Map`, `Apply`),
  the per-node `schema` rules, `TableExpr.__getitem__`, and the
  `columnwise` fusion function;
* `blaze/expr/optimize.py` — the lean-projection optimizer
  (`lean_projection` and the per-kind `_lean` dispatch rules).

`optimize.py` is written against expression classes (`Symbol`, `Field`,
`Broadcast`, `Summary`, two-argument `By`, `common_subexpression`,
`summary`) whose defining module is not part of the two source files.
Where a definition below cannot be read off `table.py` it is modelled
from the specification and marked `Modelled from the spec:` in its doc
comment.  Field sets (Python `set` objects) are modelled as canonically
sorted duplicate-free lists of strings; every place the Python code
builds a set (`set(...)`, `|`, `intersection`) the model applies the
corresponding canonicalising operation.
-/

/-- Python exception kinds raised (or returned) by the embedded code,
plus a fuel marker for the fueled recursion of the optimizer. -/
inductive PyErr where
  | fuel
  | notImplementedError
  | valueError
  | typeError
  | keyError
  | indexError
deriving DecidableEq, Repr

/-- Element types of record fields (the fragment of datashape the two
source files use). -/
inductive Ty where
  | int
  | bool
  | str
  | real
deriving DecidableEq, Repr

/-- A record schema: ordered (name, element-type) pairs, as produced by
parsing a row datashape such as `{name: string, amount: int}`. -/
abbrev Schema := List (String × Ty)

/-- A schema value: `table.py` lets `schema` be either a record (row
type) or a bare scalar dshape (`ColumnWise.schema = self.expr.dshape`,
`Reduction.dshape = parent.dshape.subarray(1)`). -/
inductive SchemaV where
  | record (s : Schema)
  | scalarS (t : Ty)
deriving DecidableEq, Repr

/-- Result of querying `schema` on a node.  `raised` models a Python
exception propagating out of the property; `returned` models the
`return TypeError(...)` / `return NotImplementedError(...)` lines of
`Apply`, where the exception object is returned as a value instead of
being raised. -/
inductive SchemaResult where
  | ok (v : SchemaV)
  | raised (e : PyErr)
  | returned (e : PyErr)
deriving DecidableEq, Repr

/-- A declared datashape for `Apply`: either a bare scalar such as
`real`, or a dimension-tagged table shape `var * {...}` / `n * {...}`.
`isdimension(self.dshape[0])` distinguishes the two. -/
inductive DShape where
  | scalarT (t : Ty)
  | varT (s : Schema)
  | fixedT (n : Nat) (s : Schema)
deriving DecidableEq, Repr

/-- Scalar operator tags for the scalar expressions carried by a
`ColumnWise`/`Broadcast` node (`Eq`, `LT`, `GT`, `Add`, ...). -/
inductive SOp where
  | add | sub | mul | div | pow | mod | eq | lt | gt
deriving DecidableEq, Repr

/-- Scalar expressions over symbolic column placeholders
(`ScalarSymbol`/`NumberSymbol` leaves), as held by a
`ColumnWise`/`Broadcast` node. -/
inductive SExpr where
  | sym (name : String)
  | intLit (n : Int)
  | strLit (s : String)
  | bin (op : SOp) (a b : SExpr)
deriving DecidableEq, Repr

/-- Modelled from the spec: the result element type of a scalar
expression (the scalar dshape module is not among the source files).
Comparisons produce `bool`; a `NumberSymbol` placeholder is created in
`columnwise` with an unspecified dtype (source comment `TODO: specify
dtype`), modelled as `int`. -/
def styp : SExpr → Ty
  | .sym _ => .int
  | .intLit _ => .int
  | .strLit _ => .str
  | .bin op a _ =>
    match op with
    | .eq => .bool
    | .lt => .bool
    | .gt => .bool
    | _ => styp a

/-- Names of the scalar placeholder symbols occurring in a scalar
expression, in traversal order (`x.name for x in self.traverse() if
isinstance(x, ScalarSymbol)`). -/
def symNames : SExpr → List String
  | .sym n => [n]
  | .intLit _ => []
  | .strLit _ => []
  | .bin _ a b => symNames a ++ symNames b

/-- Code-point lexicographic comparison on character lists, mirroring
Python string ordering as used by `sorted`. -/
def strLtB : List Char → List Char → Bool
  | [], [] => false
  | [], _ :: _ => true
  | _ :: _, [] => false
  | a :: as, b :: bs =>
    if a.val < b.val then true else if b.val < a.val then false else strLtB as bs

/-- Python `<` on strings (lexicographic by code point). -/
def sLt (a b : String) : Bool := strLtB a.data b.data

/-- Insert a string into a sorted duplicate-free list, keeping it sorted
and duplicate-free. -/
def sinsert (x : String) : List String → List String
  | [] => [x]
  | y :: ys => if x = y then y :: ys else if sLt x y then x :: y :: ys else y :: sinsert x ys

/-- Canonical form of a Python `set` of strings: sorted, duplicate-free.
`sorted(someSet)` is exactly the canonical form. -/
def canon (l : List String) : List String := l.foldr sinsert []

/-- Python set union `set(a) | set(b)`, in canonical form. -/
def sunion (a b : List String) : List String := canon (a ++ b)

/-- Python set intersection `set(a).intersection(b)`, in canonical form. -/
def sinter (a b : List String) : List String := canon (a.filter (fun x => x ∈ b))

/-- Duplicate removal keeping the first occurrence (the first index
found by Python `list.index`). -/
def dedupFirst : List String → List String
  | [] => []
  | x :: xs => x :: (dedupFirst xs).filter (fun y => y ≠ x)

/-- Duplicate removal on schema pairs keyed on the field name, keeping
the first pair for each name (`unique(group + apply, key=lambda x: x[0])`
in `By.schema`). -/
def dedupByName : List (String × Ty) → List (String × Ty)
  | [] => []
  | (n, t) :: rest => (n, t) :: (dedupByName rest).filter (fun p => p.1 ≠ n)

/-- The reduction subclasses of `table.py` (`sum`, `count`, ...). -/
inductive RKind where
  | any | all | sum | max | min | mean | var | std | count | nunique
deriving DecidableEq, Repr

mutual
/-- The expression tree of the two source files.  The constructors named
after `table.py` classes carry exactly the `__slots__` data of those
classes; `summary` and the two-slot `by_` follow the newer expression
API used by `optimize.py` and are modelled from the spec where the class
itself is missing from the sources.  `symbol` is `TableSymbol`/`Symbol`
(leaf with a declared row schema), `column` is `Column`/`Field`,
`broadcast` is `ColumnWise`/`Broadcast` (child plus scalar expression
over placeholders). -/
inductive Expr where
  | symbol (name : String) (schema : Schema)
  | projection (child : Expr) (columns : List String)
  | column (child : Expr) (name : String)
  | selection (child : Expr) (predicate : Expr)
  | broadcast (child : Expr) (sexpr : SExpr)
  | reduction (kind : RKind) (child : Expr)
  | summary (entries : EntryList)
  | by_ (grouper : Expr) (apply : Expr)
  | sort (child : Expr) (key : String) (ascending : Bool)
  | distinct (child : Expr)
  | head (child : Expr) (n : Nat)
  | label (child : Expr) (lab : String)
  | relabel (child : Expr) (labels : List (String × String))
  | map (child : Expr) (declared : Option Schema)
  | apply (child : Expr) (declared : Option DShape)
  | join (lhs : Expr) (rhs : Expr) (onLeft : String) (onRight : String)
deriving DecidableEq, Repr

/-- The named (name, value) entries of a `Summary` node, in construction
order. -/
inductive EntryList where
  | nil
  | cons (name : String) (val : Expr) (rest : EntryList)
deriving DecidableEq, Repr
end

instance exceptDecEq {e a : Type} [DecidableEq e] [DecidableEq a] : DecidableEq (Except e a) := fun
  | .ok x, .ok y =>
    if h : x = y then .isTrue (by rw [h]) else .isFalse (fun hh => h (by injection hh))
  | .ok _, .error _ => .isFalse (fun hh => Except.noConfusion hh)
  | .error _, .ok _ => .isFalse (fun hh => Except.noConfusion hh)
  | .error x, .error y =>
    if h : x = y then .isTrue (by rw [h]) else .isFalse (fun hh => h (by injection hh))

mutual
/-- Size of an expression tree (used by `commonSubexpression` to pick
the largest, i.e. lowest, shared node). -/
def esize : Expr → Nat
  | .symbol _ _ => 1
  | .projection c _ => 1 + esize c
  | .column c _ => 1 + esize c
  | .selection c p => 1 + esize c + esize p
  | .broadcast c _ => 1 + esize c
  | .reduction _ c => 1 + esize c
  | .summary es => 1 + entriesSize es
  | .by_ g a => 1 + esize g + esize a
  | .sort c _ _ => 1 + esize c
  | .distinct c => 1 + esize c
  | .head c _ => 1 + esize c
  | .label c _ => 1 + esize c
  | .relabel c _ => 1 + esize c
  | .map c _ => 1 + esize c
  | .apply c _ => 1 + esize c
  | .join l r _ _ => 1 + esize l + esize r

def entriesSize : EntryList → Nat
  | .nil => 0
  | .cons _ v rest => 1 + esize v + entriesSize rest
end

mutual
/-- All subtrees of an expression (the node itself included), in
pre-order. -/
def subterms : Expr → List Expr
  | .symbol nm sch => [.symbol nm sch]
  | .projection c cols => .projection c cols :: subterms c
  | .column c nm => .column c nm :: subterms c
  | .selection c p => .selection c p :: (subterms c ++ subterms p)
  | .broadcast c s => .broadcast c s :: subterms c
  | .reduction k c => .reduction k c :: subterms c
  | .summary es => .summary es :: subtermsL es
  | .by_ g a => .by_ g a :: (subterms g ++ subterms a)
  | .sort c k b => .sort c k b :: subterms c
  | .distinct c => .distinct c :: subterms c
  | .head c n => .head c n :: subterms c
  | .label c l => .label c l :: subterms c
  | .relabel c ls => .relabel c ls :: subterms c
  | .map c d => .map c d :: subterms c
  | .apply c d => .apply c d :: subterms c
  | .join l r a b => .join l r a b :: (subterms l ++ subterms r)

def subtermsL : EntryList → List Expr
  | .nil => []
  | .cons _ v rest => subterms v ++ subtermsL rest
end

mutual
/-- Structural substitution `expr._subs({old: new})`: every subtree
structurally equal to `old` is replaced by `new`, top-down, without
descending into the replacement. -/
def subs (old new : Expr) (e : Expr) : Expr :=
  if e = old then new else
    match e with
    | .symbol nm sch => .symbol nm sch
    | .projection c cols => .projection (subs old new c) cols
    | .column c nm => .column (subs old new c) nm
    | .selection c p => .selection (subs old new c) (subs old new p)
    | .broadcast c s => .broadcast (subs old new c) s
    | .reduction k c => .reduction k (subs old new c)
    | .summary es => .summary (subsL old new es)
    | .by_ g a => .by_ (subs old new g) (subs old new a)
    | .sort c k b => .sort (subs old new c) k b
    | .distinct c => .distinct (subs old new c)
    | .head c n => .head (subs old new c) n
    | .label c l => .label (subs old new c) l
    | .relabel c ls => .relabel (subs old new c) ls
    | .map c d => .map (subs old new c) d
    | .apply c d => .apply (subs old new c) d
    | .join l r a b => .join (subs old new l) (subs old new r) a b

def subsL (old new : Expr) : EntryList → EntryList
  | .nil => .nil
  | .cons nm v rest => .cons nm (subs old new v) (subsL old new rest)
end

mutual
/-- Names of the `Symbol` leaves an expression ultimately derives from. -/
def leafSyms : Expr → List String
  | .symbol nm _ => [nm]
  | .projection c _ => leafSyms c
  | .column c _ => leafSyms c
  | .selection c p => leafSyms c ++ leafSyms p
  | .broadcast c _ => leafSyms c
  | .reduction _ c => leafSyms c
  | .summary es => leafSymsL es
  | .by_ g a => leafSyms g ++ leafSyms a
  | .sort c _ _ => leafSyms c
  | .distinct c => leafSyms c
  | .head c _ => leafSyms c
  | .label c _ => leafSyms c
  | .relabel c _ => leafSyms c
  | .map c _ => leafSyms c
  | .apply c _ => leafSyms c
  | .join l r _ _ => leafSyms l ++ leafSyms r

def leafSymsL : EntryList → List String
  | .nil => []
  | .cons _ v rest => leafSyms v ++ leafSymsL rest
end

mutual
/-- The projections sitting directly on `Symbol` leaves: pairs of the
leaf name and the column list selected from it.  A bare (unwrapped)
`Symbol` leaf reports its full column list. -/
def leafProjs : Expr → List (String × List String)
  | .symbol nm sch => [(nm, sch.map Prod.fst)]
  | .projection (.symbol nm _) cols => [(nm, cols)]
  | .projection c _ => leafProjs c
  | .column c _ => leafProjs c
  | .selection c p => leafProjs c ++ leafProjs p
  | .broadcast c _ => leafProjs c
  | .reduction _ c => leafProjs c
  | .summary es => leafProjsL es
  | .by_ g a => leafProjs g ++ leafProjs a
  | .sort c _ _ => leafProjs c
  | .distinct c => leafProjs c
  | .head c _ => leafProjs c
  | .label c _ => leafProjs c
  | .relabel c _ => leafProjs c
  | .map c _ => leafProjs c
  | .apply c _ => leafProjs c
  | .join l r _ _ => leafProjs l ++ leafProjs r

def leafProjsL : EntryList → List (String × List String)
  | .nil => []
  | .cons _ v rest => leafProjs v ++ leafProjsL rest
end

/-- Look up each requested column in a record's field mapping
(`[(col, d[col]) for col in self.columns]`); `none` models the
`KeyError` raised at the first missing column. -/
def lookupAll (d : Schema) : List String → Option Schema
  | [] => some []
  | c :: cs =>
    match d.lookup c, lookupAll d cs with
    | some t, some rest => some ((c, t) :: rest)
    | _, _ => none

/-- Modelled from the spec: the element type a `Summary` entry
contributes to the summary's merged record (one field per name); the
`summary` helper itself is not among the source files.  Single-field
records and scalars contribute their element type. -/
def dtypeD : SchemaResult → Ty
  | .ok (.scalarS t) => t
  | .ok (.record ((_, t) :: _)) => t
  | _ => .int

mutual
/-- The `schema` rules of `table.py`, one case per node class, with
`Reduction`'s `dshape.subarray(1)` (its row-level shape) standing in for
the `schema` of scalar nodes.  A `raised` child result propagates; a
`returned` child result (an exception object used as a value) makes the
parent's attribute accesses fail, modelled as `raised typeError`. -/
def schemaOf : Expr → SchemaResult
  | .symbol _ sch => .ok (.record sch)
  | .projection c cols =>
    match schemaOf c with
    | .ok (.record d) =>
      match lookupAll d cols with
      | some s => .ok (.record s)
      | none => .raised .keyError
    | .ok (.scalarS _) => .raised .typeError
    | .raised e => .raised e
    | .returned _ => .raised .typeError
  | .column c nm =>
    match schemaOf c with
    | .ok (.record d) =>
      match lookupAll d [nm] with
      | some s => .ok (.record s)
      | none => .raised .keyError
    | .ok (.scalarS _) => .raised .typeError
    | .raised e => .raised e
    | .returned _ => .raised .typeError
  | .selection c _ => schemaOf c
  | .broadcast _ s => .ok (.scalarS (styp s))
  | .reduction _ c =>
    match schemaOf c with
    | .ok v => .ok v
    | .raised e => .raised e
    | .returned _ => .raised .typeError
  | .summary es => .ok (.record (entriesPairs es))
  | .by_ g a =>
    match schemaOf g with
    | .ok (.record gs) =>
      match schemaOf a with
      | .ok (.record as_) => .ok (.record (dedupByName (gs ++ as_)))
      | .ok (.scalarS t) => .ok (.record (dedupByName (gs ++ [("0", t)])))
      | .raised e => .raised e
      | .returned _ => .raised .typeError
    | .ok (.scalarS _) => .raised .typeError
    | .raised e => .raised e
    | .returned _ => .raised .typeError
  | .sort c _ _ => schemaOf c
  | .distinct c => schemaOf c
  | .head c _ => schemaOf c
  | .label c lab =>
    match schemaOf c with
    | .ok (.record ((_, t) :: _)) => .ok (.record [(lab, t)])
    | .ok (.record []) => .raised .indexError
    | .ok (.scalarS t) => .ok (.record [(lab, t)])
    | .raised e => .raised e
    | .returned _ => .raised .typeError
  | .relabel c labels =>
    match schemaOf c with
    | .ok (.record d) =>
      .ok (.record (d.map (fun p => ((labels.lookup p.1).getD p.1, p.2))))
    | .ok (.scalarS _) => .raised .typeError
    | .raised e => .raised e
    | .returned _ => .raised .typeError
  | .map _ declared =>
    match declared with
    | some s => .ok (.record s)
    | none => .raised .notImplementedError
  | .apply _ declared =>
    match declared with
    | none => .returned .typeError
    | some (.scalarT _) => .returned .typeError
    | some (.varT s) => .ok (.record s)
    | some (.fixedT _ s) => .ok (.record s)
  | .join l r _ onRight =>
    match schemaOf l with
    | .ok (.record s1) =>
      match schemaOf r with
      | .ok (.record s2) => .ok (.record (s1 ++ s2.filter (fun p => p.1 ≠ onRight)))
      | .ok (.scalarS _) => .raised .typeError
      | .raised e => .raised e
      | .returned _ => .raised .typeError
    | .ok (.scalarS _) => .raised .typeError
    | .raised e => .raised e
    | .returned _ => .raised .typeError

/-- One merged-record field per `Summary` entry, in entry order. -/
def entriesPairs : EntryList → Schema
  | .nil => []
  | .cons nm v rest => (nm, dtypeD (schemaOf v)) :: entriesPairs rest
end

/-- `expr.fields` / `expr.columns` when the node's schema is a record. -/
def rowFields (e : Expr) : Option (List String) :=
  match schemaOf e with
  | .ok (.record s) => some (s.map Prod.fst)
  | _ => none

/-- `expr.fields` as an exception-carrying computation: a `raised`
schema error propagates; a scalar or `returned` schema makes the field
list undefined (`typeError`). -/
def fieldsE (e : Expr) : Except PyErr (List String) :=
  match schemaOf e with
  | .ok (.record s) => .ok (s.map Prod.fst)
  | .ok (.scalarS _) => .error .typeError
  | .raised er => .error er
  | .returned _ => .error .typeError

/-- `TableExpr.__getitem__` with a string key (table.py lines 44-47):
raise `ValueError("Mismatched Column")` unless the key is one of the
child's columns, then build a `Column` node. -/
def getitemStr (t : Expr) (k : String) : Except PyErr Expr := do
  let cols ← fieldsE t
  if k ∈ cols then .ok (.column t k) else .error .valueError

/-- `TableExpr.__getitem__` with a list key (table.py lines 48-52):
raise `ValueError("Mismatched Columns")` unless every key is one of the
child's columns, then build a `Projection` node. -/
def getitemCols (t : Expr) (ks : List String) : Except PyErr Expr := do
  let cols ← fieldsE t
  if ks.all (fun k => k ∈ cols) then .ok (.projection t ks) else .error .valueError

/-- `Projection.__init__` (table.py lines 115-117): stores the child and
the column tuple and performs no validation, so it never raises. -/
def projInit (table : Expr) (columns : List String) : Except PyErr Expr :=
  .ok (.projection table columns)

/-- `Column.__init__` (table.py lines 226-228): stores the child and the
column name and performs no validation, so it never raises. -/
def columnInit (table : Expr) (name : String) : Except PyErr Expr :=
  .ok (.column table name)

/-- `Join.__init__` (table.py lines 356-364): looks up the two key
columns' element types (`KeyError` if absent) and raises `TypeError`
when they differ; performs no duplicate-name check. -/
def joinInit (lhs rhs : Expr) (onLeft onRight : String) : Except PyErr Expr :=
  match schemaOf lhs, schemaOf rhs with
  | .ok (.record s1), .ok (.record s2) =>
    match s1.lookup onLeft, s2.lookup onRight with
    | some t1, some t2 =>
      if t1 = t2 then .ok (.join lhs rhs onLeft onRight) else .error .typeError
    | _, _ => .error .keyError
  | _, _ => .error .typeError

/-- An argument to `columnwise` after the `isinstance` classification of
table.py lines 286-296: a `Column` node (child plus column name), a
`ColumnWise` node (child plus scalar expression), or a plain literal
passed through unchanged (`maybe something like 5 or 'Alice'`). -/
inductive CwInput where
  | colE (parent : Expr) (name : String)
  | cwE (parent : Expr) (sexpr : SExpr)
  | lit (v : SExpr)
deriving DecidableEq, Repr

/-- The scalar operand contributed by one `columnwise` input: the inner
expression of a `ColumnWise`, a fresh placeholder named after a
`Column`'s column (`NumberSymbol(col.columns[0])`), or the literal. -/
def cwOperand : CwInput → SExpr
  | .cwE _ s => s
  | .colE _ n => .sym n
  | .lit v => v

/-- The source table recorded for one `columnwise` input
(`parents.add(col.parent)`); a literal records none. -/
def cwParent : CwInput → Option Expr
  | .cwE p _ => some p
  | .colE p _ => some p
  | .lit _ => none

/-- The set of distinct source tables collected by `columnwise`. -/
def cwParents (inputs : List CwInput) : List Expr :=
  (inputs.filterMap cwParent).dedup

/-- `columnwise(op, *column_inputs)` (table.py lines 277-304): classify
the inputs, collect the distinct parents, raise
`ValueError("All inputs must be from same Table")` unless exactly one
parent was collected, and wrap the combined scalar expression in a
`ColumnWise` over that parent. -/
def columnwise (op : List SExpr → SExpr) (inputs : List CwInput) : Except PyErr Expr :=
  match cwParents inputs with
  | [p] => .ok (.broadcast p (op (inputs.map cwOperand)))
  | _ => .error .valueError

/-- Modelled from the spec: `common_subexpression` (section 4.4 — the
lowest node present, structurally identically, in both chains; failing
loudly when there is none).  Its defining module is not among the source
files.  The candidates are the shared subterms; the largest one (first
in pre-order on ties) is the lowest shared node. -/
def commonSubexpression (a b : Expr) : Except PyErr Expr :=
  match (subterms a).filter (fun s => s ∈ subterms b) with
  | [] => .error .valueError
  | c :: cs => .ok (cs.foldl (fun best s => if esize best < esize s then s else best) c)

/-- The loop of the `Summary` rule of `_lean`: entries whose name is not
requested are dropped entirely; kept entries are re-leaned with an empty
initial request, and their discovered fields are unioned. -/
def leanEntries (rec : Expr → Except PyErr (Expr × List String)) (F : List String) :
    EntryList → Except PyErr (EntryList × List String)
  | .nil => .ok (.nil, [])
  | .cons nm v rest =>
    if nm ∈ F then do
      let (v', vf) ← rec v
      let (rest', rf) ← leanEntries rec F rest
      .ok (.cons nm v' rest', sunion vf rf)
    else leanEntries rec F rest

/-- `_lean` rule for `Symbol` (optimize.py lines 22-24): wrap the leaf
in a projection over the sorted requested fields; report the incoming
request unchanged. -/
def symbolRule (nm : String) (sch : Schema) (F : List String) :
    Except PyErr (Expr × List String) := do
  let p ← getitemCols (.symbol nm sch) (canon F)
  .ok (p, F)

/-- `_lean` rule for `Projection` (optimize.py lines 27-30): recurse
into the child with the same request, then select the requested fields,
ordered by their index in the original projection's field list
(`sorted(fields, key=expr.fields.index)` — `ValueError` when a requested
field is not among them); report the incoming request unchanged. -/
def projectionRule (rec : Expr → List String → Except PyErr (Expr × List String))
    (c : Expr) (cols : List String) (F : List String) :
    Except PyErr (Expr × List String) := do
  let (c', _) ← rec c F
  let pf ← fieldsE (.projection c cols)
  if F.all (fun f => f ∈ pf) then do
    let r ← getitemCols c' ((dedupFirst pf).filter (fun f => f ∈ F))
    .ok (r, F)
  else .error .valueError

/-- `_lean` rule for `Field`/`Column` (optimize.py lines 33-38): add the
accessed name to the request, recurse into the child with the union,
wrap with the field access, and report the union. -/
def fieldRule (rec : Expr → List String → Except PyErr (Expr × List String))
    (c : Expr) (nm : String) (F : List String) :
    Except PyErr (Expr × List String) :=
  let F' := sinsert nm (canon F)
  do
  let (c', _) ← rec c F'
  let r ← getitemStr c' nm
  .ok (r, F')

/-- `_lean` rule for `Broadcast`/`ColumnWise` (optimize.py lines 41-45):
union the request with the broadcast's active columns, recurse into the
child with the union, substitute the rewritten child in place, and
report the union. -/
def broadcastRule (rec : Expr → List String → Except PyErr (Expr × List String))
    (c : Expr) (s : SExpr) (F : List String) :
    Except PyErr (Expr × List String) :=
  let F' := sunion F (canon (symNames s))
  do
  let (c', _) ← rec c F'
  .ok (subs c c' (.broadcast c s), F')

/-- `_lean` rule for `Selection` (optimize.py lines 48-53): recurse into
the predicate with the incoming request (the rewritten predicate itself
is discarded), union the predicate's reported fields into the request,
recurse into the primary child with the union, substitute, and report
the union. -/
def selectionRule (rec : Expr → List String → Except PyErr (Expr × List String))
    (c p : Expr) (F : List String) :
    Except PyErr (Expr × List String) := do
  let (_, pf) ← rec p F
  let F' := sunion F pf
  let (c', _) ← rec c F'
  .ok (subs c c' (.selection c p), F')

/-- `_lean` rule for `Reduction` (optimize.py lines 56-59): recurse into
the child with an empty request, substitute, and report the child's
discovered fields (the incoming request is ignored). -/
def reductionRule (rec : Expr → List String → Except PyErr (Expr × List String))
    (k : RKind) (c : Expr) (F : List String) :
    Except PyErr (Expr × List String) := do
  let (c', cf) ← rec c []
  .ok (subs c c' (.reduction k c), cf)

/-- `_lean` rule for `Summary` (optimize.py lines 62-72): keep only the
entries whose name is requested, re-lean each kept value with an empty
request, rebuild the summary from the kept entries, and report the union
of their discovered fields. -/
def summaryRule (rec : Expr → List String → Except PyErr (Expr × List String))
    (es : EntryList) (F : List String) :
    Except PyErr (Expr × List String) := do
  let (es', nf) ← leanEntries (fun v => rec v []) F es
  .ok (.summary es', nf)

/-- `_lean` rule for `By` (optimize.py lines 75-92): lean grouper and
apply independently with the request intersected with their own fields;
union the two reported field sets; find the common subexpression of the
rewritten sides; if it still exposes more fields than the union, re-lean
it down to the union and substitute the result at the original `By`'s
`_child` (modelled from the spec as the common subexpression of the
original grouper and apply, section 4.4) inside both rewritten sides. -/
def byRule (rec : Expr → List String → Except PyErr (Expr × List String))
    (g a : Expr) (F : List String) :
    Except PyErr (Expr × List String) :=
  let Fc := canon F
  do
  let gf ← fieldsE g
  let (g', gfs) ← rec g (sinter Fc gf)
  let af ← fieldsE a
  let (a', afs) ← rec a (sinter Fc af)
  let nf := sunion afs gfs
  let child ← commonSubexpression g' a'
  let cf ← fieldsE child
  if nf.length < cf.length then do
    let (child2, _) ← rec child nf
    let oc ← commonSubexpression g a
    .ok (.by_ (subs oc child2 g') (subs oc child2 a'), nf)
  else .ok (.by_ g' a', nf)

/-- The `_lean` dispatch (optimize.py lines 22-92): one rule per handled
node kind, selected by the node's runtime type; a node kind with no
registered rule fails dispatch (`NotImplementedError`).  The `Nat`
argument is recursion fuel (the Python recursion carries none). -/
def leanStep : Nat → Expr → List String → Except PyErr (Expr × List String)
  | 0, _, _ => .error .fuel
  | n + 1, e, F =>
    match e with
    | .symbol nm sch => symbolRule nm sch F
    | .projection c cols => projectionRule (leanStep n) c cols F
    | .column c nm => fieldRule (leanStep n) c nm F
    | .selection c p => selectionRule (leanStep n) c p F
    | .broadcast c s => broadcastRule (leanStep n) c s F
    | .reduction k c => reductionRule (leanStep n) k c F
    | .summary es => summaryRule (leanStep n) es F
    | .by_ g a => byRule (leanStep n) g a F
    | _ => .error .notImplementedError

/-- `lean_projection(expr)` (optimize.py lines 9-19): run `_lean` with
the expression's own field list as the root request and return the
rewritten tree.  The fuel is a size-based bound, ample for every tree
whose rewriting terminates. -/
def leanProjection (e : Expr) : Except PyErr Expr := do
  let flds ← fieldsE e
  let (r, _) ← leanStep (2 * esize e + 12) e flds
  .ok r

/-- The four-column leaf of the `lean_projection` doctest:
`Symbol('t', 'var * {a: int, b: int, c: int, d: int}')`. -/
def tAbcd : Expr := .symbol "t" [("a", .int), ("b", .int), ("c", .int), ("d", .int)]

/-- The scalar expression of the predicate `t.a > 0`. -/
def gtA : SExpr := .bin .gt (.sym "a") (.intLit 0)

/-- The doctest expression `t[t.a > 0].b`. -/
def c1Expr : Expr := .column (.selection tAbcd (.broadcast tAbcd gtA)) "b"

/-- The pruned leaf `t[['a', 'b']]`. -/
def projAB : Expr := .projection tAbcd ["a", "b"]

/-- The doctest result `t[['a', 'b']][t[['a', 'b']]['a'] > 0]['b']`. -/
def c1Out : Expr := .column (.selection projAB (.broadcast projAB gtA)) "b"

/-- A two-column leaf `{f: bool, x: int}`. -/
def tFx : Expr := .symbol "t" [("f", .bool), ("x", .int)]

/-- A boolean-typed single-entry `Summary` predicate
`summary(x=any(t.f))` (its schema is the single `bool` field `x`, so a
`Selection` over it passes the boolean-predicate construction check). -/
def sumPred : Expr := .summary (.cons "x" (.reduction .any (.column tFx "f")) .nil)

/-- What the `Selection` rule actually produces for
`t[sumPred]` under the outer request `{x}`. -/
def c3Out : Expr :=
  .selection (.projection tFx ["f", "x"])
    (.summary (.cons "x" (.reduction .any (.column (.projection tFx ["f", "x"]) "f")) .nil))

/-- A three-column leaf `{a: int, b: int, c: int}`. -/
def tAbc : Expr := .symbol "t" [("a", .int), ("b", .int), ("c", .int)]

/-- The group-by leaf `{name: string, amount: int, id: int}`. -/
def tNai : Expr := .symbol "t" [("name", .str), ("amount", .int), ("id", .int)]

/-- `By(t.name, t.amount.sum())`. -/
def by9 : Expr := .by_ (.column tNai "name") (.reduction .sum (.column tNai "amount"))

/-- First `lean_projection` pass over `by9`: both sides share the leaf
projection `t[['amount', 'name']]`. -/
def e9One : Expr :=
  .by_
    (.column (.projection (.projection tNai ["amount", "name"]) ["name"]) "name")
    (.reduction .sum
      (.column (.projection (.projection tNai ["amount", "name"]) ["amount"]) "amount"))

/-- Second `lean_projection` pass, applied to `e9One`: the two sides now
carry the narrower leaf projections `t[['name']]` and `t[['amount']]`. -/
def e9Two : Expr :=
  .by_
    (.column (.projection (.projection (.projection tNai ["name"]) ["name"]) ["name"]) "name")
    (.reduction .sum
      (.column (.projection (.projection (.projection tNai ["amount"]) ["amount"]) ["amount"])
        "amount"))

/-- Left operand of the duplicate-name join: `{id: int, x: int}`. -/
def dupL : Expr := .symbol "l" [("id", .int), ("x", .int)]

/-- Right operand of the duplicate-name join: `{id: int, x: int}`. -/
def dupR : Expr := .symbol "r" [("id", .int), ("x", .int)]

/-- The `{id: int, name: string}` table of the join example. -/
def namesT : Expr := .symbol "names" [("id", .int), ("name", .str)]

/-- The `{id: int, amount: int}` table of the join example. -/
def amountsT : Expr := .symbol "amounts" [("id", .int), ("amount", .int)]

/-- A one-column leaf `{a: int}`. -/
def tA : Expr := .symbol "t" [("a", .int)]

/-- A one-column leaf `{a: int}` named `s`. -/
def sA : Expr := .symbol "s" [("a", .int)]

/-- A one-column leaf `{b: int}` named `u`. -/
def uB : Expr := .symbol "u" [("b", .int)]

theorem bindOk {e a b : Type} (x : a) (f : a → Except e b) :
    (Except.ok x : Except e a) >>= f = f x := rfl

theorem bindErr {e a b : Type} (er : e) (f : a → Except e b) :
    (Except.error er : Except e a) >>= f = .error er := rfl

theorem lookupAll_names (d : Schema) :
    ∀ cols s, lookupAll d cols = some s → s.map Prod.fst = cols := by
  intro cols
  induction cols with
  | nil => intro s h; simp [lookupAll] at h; simp [← h]
  | cons c cs ih =>
    intro s h
    simp only [lookupAll] at h
    cases hl : d.lookup c with
    | none => rw [hl] at h; exact absurd h (by simp)
    | some t =>
      rw [hl] at h
      cases hr : lookupAll d cs with
      | none => rw [hr] at h; exact absurd h (by simp)
      | some rest =>
        rw [hr] at h
        cases h
        simpa using ih rest hr

theorem fieldsE_projection (c : Expr) (cols pf : List String)
    (h : fieldsE (.projection c cols) = .ok pf) : pf = cols := by
  simp only [fieldsE, schemaOf] at h
  cases hc : schemaOf c with
  | ok w =>
    cases w with
    | record d =>
      simp only [hc] at h
      cases hla : lookupAll d cols with
      | none => simp [hla] at h
      | some s' =>
        simp only [hla, Except.ok.injEq] at h
        rw [← h]
        exact lookupAll_names d cols s' hla
    | scalarS t => simp [hc] at h
  | raised er => simp [hc] at h
  | returned er => simp [hc] at h

/-- C1: for the leaf `t : {a: int, b: int, c: int, d: int}` and the
expression `t[t.a > 0].b` (root request `{b}`), `lean_projection`
returns `t[['a', 'b']][t[['a', 'b']]['a'] > 0]['b']`: the leaf symbol is
wrapped in a projection whose column list is exactly `['a', 'b']` in
sorted order, and the root schema is the single field `b`. -/
theorem c1_selection_column_pull :
    leanProjection c1Expr = .ok c1Out ∧
    (leafProjs c1Out).dedup = [("t", ["a", "b"])] ∧
    schemaOf c1Out = .ok (.record [("b", Ty.int)]) :=
  ⟨rfl, rfl, rfl⟩

/-- C2 counterexample: `Sort` is a section-3 node kind, yet applying
`lean_projection` to a tree containing (here: rooted at) a `Sort` node
fails with the missing-rule dispatch error, refuting the claim that
every section-3 kind has a rewrite rule. -/
theorem c2_sort_unhandled :
    leanProjection (.sort tAbcd "a" true) = .error .notImplementedError :=
  rfl

/-- C2 amended: the `_lean` dispatch has rules exactly for the eight
kinds `Symbol`, `Projection`, `Column`/`Field`, `Selection`,
`ColumnWise`/`Broadcast`, `Reduction`, `Summary` and `By`; the remaining
section-3 kinds (`Sort`, `Distinct`, `Head`, `Label`, `ReLabel`, `Map`,
`Apply`, `Join`) have no rule, and dispatch on a node of such a kind
fails with `NotImplementedError`. -/
theorem c2_rule_table :
    (∀ n nm sch F, leanStep (n + 1) (.symbol nm sch) F = symbolRule nm sch F) ∧
    (∀ n c cols F, leanStep (n + 1) (.projection c cols) F = projectionRule (leanStep n) c cols F) ∧
    (∀ n c nm F, leanStep (n + 1) (.column c nm) F = fieldRule (leanStep n) c nm F) ∧
    (∀ n c p F, leanStep (n + 1) (.selection c p) F = selectionRule (leanStep n) c p F) ∧
    (∀ n c s F, leanStep (n + 1) (.broadcast c s) F = broadcastRule (leanStep n) c s F) ∧
    (∀ n k c F, leanStep (n + 1) (.reduction k c) F = reductionRule (leanStep n) k c F) ∧
    (∀ n es F, leanStep (n + 1) (.summary es) F = summaryRule (leanStep n) es F) ∧
    (∀ n g a F, leanStep (n + 1) (.by_ g a) F = byRule (leanStep n) g a F) ∧
    (∀ n c k b F, leanStep (n + 1) (.sort c k b) F = .error .notImplementedError) ∧
    (∀ n c F, leanStep (n + 1) (.distinct c) F = .error .notImplementedError) ∧
    (∀ n c m F, leanStep (n + 1) (.head c m) F = .error .notImplementedError) ∧
    (∀ n c l F, leanStep (n + 1) (.label c l) F = .error .notImplementedError) ∧
    (∀ n c ls F, leanStep (n + 1) (.relabel c ls) F = .error .notImplementedError) ∧
    (∀ n c d F, leanStep (n + 1) (Expr.map c d) F = .error .notImplementedError) ∧
    (∀ n c d F, leanStep (n + 1) (Expr.apply c d) F = .error .notImplementedError) ∧
    (∀ n l r a b F, leanStep (n + 1) (.join l r a b) F = .error .notImplementedError) :=
  ⟨fun _ _ _ _ => rfl, fun _ _ _ _ => rfl, fun _ _ _ _ => rfl, fun _ _ _ _ => rfl,
   fun _ _ _ _ => rfl, fun _ _ _ _ => rfl, fun _ _ _ => rfl, fun _ _ _ _ => rfl,
   fun _ _ _ _ _ => rfl, fun _ _ _ => rfl, fun _ _ _ _ => rfl, fun _ _ _ _ => rfl,
   fun _ _ _ _ => rfl, fun _ _ _ _ => rfl, fun _ _ _ _ => rfl, fun _ _ _ _ _ _ => rfl⟩

/-- C8: schema queries on invariant-violating nodes.  A `Label` over a
multi-field child silently returns a single-field record built from the
child's first field instead of raising; a `Map` with no declared schema
does raise (`NotImplementedError`); an `Apply` with a scalar declared
dshape, or with none at all, returns a `TypeError` exception object as
the schema value instead of raising it (`return TypeError(...)` in the
source).  This contradicts the claim that such queries raise a typed
error rather than silently returning a wrong shape or returning an
exception value. -/
theorem c8_schema_error_behavior :
    schemaOf (.label (.symbol "t" [("a", Ty.int), ("b", Ty.str)]) "z")
      = .ok (.record [("z", Ty.int)]) ∧
    schemaOf (Expr.map tA none) = .raised .notImplementedError ∧
    schemaOf (Expr.apply tA (some (.scalarT .real))) = .returned .typeError ∧
    schemaOf (Expr.apply tA none) = .returned .typeError :=
  ⟨rfl, rfl, rfl, rfl⟩

/-- C9: `lean_projection` is not idempotent.  For
`By(t.name, t.amount.sum())` over `t : {name, amount, id}`, the first
pass produces a tree whose two sides share the leaf projection
`t[['amount', 'name']]`; re-running `lean_projection` on that output
shrinks the leaf projections further, to `t[['name']]` on the grouper
side and `t[['amount']]` on the apply side (the `By` rule re-prunes at
the original `_child`, which no longer occurs in the rewritten sides).
The resulting schema is unchanged, but the leaf `Symbol` projections'
column sets differ, refuting the no-further-shrinkage claim. -/
theorem c9_second_pass_shrinks :
    leanProjection by9 = .ok e9One ∧
    leanProjection e9One = .ok e9Two ∧
    (leafProjs e9One).dedup = [("t", ["amount", "name"])] ∧
    (leafProjs e9Two).dedup = [("t", ["name"]), ("t", ["amount"])] ∧
    schemaOf e9Two = schemaOf e9One ∧
    (leafProjs e9Two).dedup ≠ (leafProjs e9One).dedup :=
  ⟨rfl, rfl, rfl, rfl, rfl, by decide⟩

/-- C6 counterexample: joining `l : {id: int, x: int}` with
`r : {id: int, x: int}` on `id` constructs successfully and yields the
schema `(id, x, x)` with a duplicate `x` and no error, refuting the
claim that a duplicate field name remaining after excluding the
right-key column is an error. -/
theorem c6_duplicate_kept :
    joinInit dupL dupR "id" "id" = .ok (.join dupL dupR "id" "id") ∧
    schemaOf (.join dupL dupR "id" "id")
      = .ok (.record [("id", Ty.int), ("x", Ty.int), ("x", Ty.int)]) :=
  ⟨rfl, rfl⟩

/-- C6 amended: a join's schema is the left child's fields in order,
concatenated with the right child's fields excluding the right-key
column; duplicate names remaining after that exclusion are kept, not
rejected.  (In particular `{id, name}` joined with `{id, amount}` on
`id` yields `(id, name, amount)` with no duplicate `id`.) -/
theorem c6_join_schema_concat (l r : Expr) (ol orr : String) (s1 s2 : Schema)
    (h1 : schemaOf l = .ok (.record s1)) (h2 : schemaOf r = .ok (.record s2)) :
    schemaOf (.join l r ol orr)
      = .ok (.record (s1 ++ s2.filter (fun p => p.1 ≠ orr))) := by
  simp only [schemaOf, h1, h2]

theorem c6_join_schema_concat_w :
    schemaOf (.join namesT amountsT "id" "id")
      = .ok (.record ([("id", Ty.int), ("name", Ty.str)] ++
          [("id", Ty.int), ("amount", Ty.int)].filter (fun p => p.1 ≠ "id"))) :=
  c6_join_schema_concat namesT amountsT "id" "id"
    [("id", Ty.int), ("name", Ty.str)] [("id", Ty.int), ("amount", Ty.int)] rfl rfl

/-- C3 counterexample: for the selection `t[sumPred]` over
`t : {f: bool, x: int}` with the boolean single-entry summary predicate
`summary(x=any(t.f))` and outer request `{x}`, the `Selection` rule
seeds the predicate recursion with the outer request (so the kept entry
`x` contributes `{f}`) and reports `{f, x}`; had it recursed with an
empty initial request as claimed, the predicate would report no fields
and the rule would report `{x}`.  The two disagree, refuting the
empty-initial-request claim. -/
theorem c3_outer_seed_observable :
    leanStep 9 (.selection tFx sumPred) ["x"] = .ok (c3Out, ["f", "x"]) ∧
    leanStep 8 sumPred [] = .ok (.summary .nil, []) ∧
    sunion ["x"] [] = ["x"] ∧
    (["f", "x"] : List String) ≠ ["x"] :=
  ⟨rfl, rfl, rfl, by decide⟩

/-- C3 amended: the `Selection` rule recurses into the predicate with
the outer requested fields as the initial set (not an empty set),
obtains the predicate recursion's reported fields, unions them into the
outer request, recurses into the primary child with that union,
substitutes the rewritten child, and reports the union. -/
theorem c3_selection_rule_seed (n : Nat) (c p : Expr) (F : List String)
    (out : Expr × List String)
    (h : leanStep (n + 1) (.selection c p) F = .ok out) :
    ∃ p' pf c' cf, leanStep n p F = .ok (p', pf) ∧
      leanStep n c (sunion F pf) = .ok (c', cf) ∧
      out = (subs c c' (.selection c p), sunion F pf) := by
  have h' : selectionRule (leanStep n) c p F = .ok out := h
  unfold selectionRule at h'
  cases hp : leanStep n p F with
  | error er => rw [hp, bindErr] at h'; exact absurd h' (by simp)
  | ok pp =>
    obtain ⟨p', pf⟩ := pp
    rw [hp, bindOk] at h'
    dsimp only at h'
    cases hc : leanStep n c (sunion F pf) with
    | error er => rw [hc, bindErr] at h'; exact absurd h' (by simp)
    | ok cc =>
      obtain ⟨c', cf⟩ := cc
      rw [hc, bindOk] at h'
      refine ⟨p', pf, c', cf, rfl, hc, ?_⟩
      cases h'
      rfl

theorem c3_selection_rule_seed_w :
    ∃ p' pf c' cf,
      leanStep 8 (.broadcast tAbcd gtA) ["b"] = .ok (p', pf) ∧
      leanStep 8 tAbcd (sunion ["b"] pf) = .ok (c', cf) ∧
      ((.selection projAB (.broadcast projAB gtA) : Expr), ["a", "b"])
        = (subs tAbcd c' (.selection tAbcd (.broadcast tAbcd gtA)), sunion ["b"] pf) :=
  c3_selection_rule_seed 8 tAbcd (.broadcast tAbcd gtA) ["b"]
    (.selection projAB (.broadcast projAB gtA), ["a", "b"]) rfl

/-- C4 counterexample: for the projection `t[['a', 'b']]` over
`t : {a, b, c}` and the requested field set `{a}`, the `Projection` rule
rebuilds the node with column list `['a']` — the requested fields, not
the original columns `['a', 'b']` — so the rewrite does change which
columns the projection selects, refuting the claim. -/
theorem c4_projection_narrows :
    leanStep 9 (.projection tAbc ["a", "b"]) ["a"]
      = .ok (.projection (.projection tAbc ["a"]) ["a"], ["a"]) ∧
    (["a"] : List String) ≠ ["a", "b"] :=
  ⟨rfl, by decide⟩

/-- C4 amended: when the `Projection` rule succeeds it recurses into the
child with the same requested fields and rebuilds the node with column
list equal to the requested fields, ordered by their first index in the
original projection's column list (not the original column list, and not
ordered by the rewritten child); it reports the original requested
fields unchanged. -/
theorem c4_projection_rule_requested (n : Nat) (c : Expr) (cols : List String)
    (F : List String) (out : Expr × List String)
    (h : leanStep (n + 1) (.projection c cols) F = .ok out) :
    ∃ c' cf, leanStep n c F = .ok (c', cf) ∧
      out = (.projection c' ((dedupFirst cols).filter (fun f => f ∈ F)), F) := by
  have h' : projectionRule (leanStep n) c cols F = .ok out := h
  unfold projectionRule at h'
  cases hc : leanStep n c F with
  | error er => rw [hc, bindErr] at h'; exact absurd h' (by simp)
  | ok cc =>
    obtain ⟨c', cf⟩ := cc
    rw [hc, bindOk] at h'
    dsimp only at h'
    cases hf : fieldsE (.projection c cols) with
    | error er => rw [hf, bindErr] at h'; exact absurd h' (by simp)
    | ok pf =>
      rw [hf, bindOk] at h'
      have hpf : pf = cols := fieldsE_projection c cols pf hf
      subst hpf
      by_cases hall : F.all (fun f => f ∈ pf)
      · rw [if_pos hall] at h'
        unfold getitemCols at h'
        cases hf' : fieldsE c' with
        | error er => rw [hf', bindErr, bindErr] at h'; exact absurd h' (by simp)
        | ok cols' =>
          rw [hf', bindOk] at h'
          by_cases hall' : ((dedupFirst pf).filter (fun f => f ∈ F)).all (fun k => k ∈ cols')
          · rw [if_pos hall'] at h'
            refine ⟨c', cf, rfl, ?_⟩
            cases h'
            rfl
          · rw [if_neg hall', bindErr] at h'
            exact absurd h' (by simp)
      · rw [if_neg hall] at h'
        exact absurd h' (by simp)

theorem c4_projection_rule_requested_w :
    ∃ c' cf, leanStep 8 tAbc ["a"] = .ok (c', cf) ∧
      ((.projection (.projection tAbc ["a"]) ["a"] : Expr), (["a"] : List String))
        = (.projection c' ((dedupFirst ["a", "b"]).filter (fun f => f ∈ (["a"] : List String))),
            ["a"]) :=
  c4_projection_rule_requested 8 tAbc ["a", "b"] ["a"]
    (.projection (.projection tAbc ["a"]) ["a"], ["a"]) rfl

theorem cwParent_mem (inputs : List CwInput) (i : CwInput) (p : Expr)
    (hi : i ∈ inputs) (hp : cwParent i = some p) : p ∈ cwParents inputs := by
  unfold cwParents
  exact List.mem_dedup.mpr (List.mem_filterMap.mpr ⟨i, hi, hp⟩)

/-- C5: whenever two `columnwise` inputs record source tables that trace
back to different `Symbol` leaves, the collected distinct-parent set has
size greater than one and `columnwise` raises the mismatched-source-table
`ValueError` instead of returning a `ColumnWise` node. -/
theorem c5_cross_table_fusion_error (op : List SExpr → SExpr) (inputs : List CwInput)
    (i j : CwInput) (p q : Expr) (hi : i ∈ inputs) (hj : j ∈ inputs)
    (hpi : cwParent i = some p) (hqj : cwParent j = some q)
    (hleaf : canon (leafSyms p) ≠ canon (leafSyms q)) :
    columnwise op inputs = .error .valueError := by
  have hpq : p ≠ q := fun hh => hleaf (by rw [hh])
  have hp := cwParent_mem inputs i p hi hpi
  have hq := cwParent_mem inputs j q hj hqj
  unfold columnwise
  cases hps : cwParents inputs with
  | nil => rfl
  | cons x xs =>
    cases xs with
    | nil =>
      rw [hps] at hp hq
      have h1 : p = x := by simpa using hp
      have h2 : q = x := by simpa using hq
      exact absurd (h1.trans h2.symm) hpq
    | cons y rest => rfl

theorem c5_cross_table_fusion_error_w :
    columnwise (fun args => SExpr.bin .add (args.headD (SExpr.intLit 0)) (SExpr.intLit 0))
      [CwInput.colE sA "a", CwInput.colE uB "b"] = .error .valueError :=
  c5_cross_table_fusion_error _ _ (.colE sA "a") (.colE uB "b") sA uB
    (by decide) (by decide) rfl rfl (by decide)

/-- C10: when every `columnwise` input is a plain literal (no `Column`
and no `ColumnWise` operand), the collected parent set is empty, its
size is not one, and the very same mismatched-source-table `ValueError`
is raised: fusion demands exactly one distinct source table, not at
most one. -/
theorem c10_literal_only_fusion_error (op : List SExpr → SExpr) (inputs : List CwInput)
    (h : ∀ i ∈ inputs, cwParent i = none) :
    columnwise op inputs = .error .valueError := by
  have h0 : inputs.filterMap cwParent = [] := List.filterMap_eq_nil_iff.mpr h
  have h1 : cwParents inputs = [] := by unfold cwParents; rw [h0]; rfl
  unfold columnwise
  rw [h1]

theorem c10_literal_only_fusion_error_w :
    columnwise (fun args => SExpr.bin .add (args.headD (SExpr.intLit 0)) (SExpr.intLit 0))
      [CwInput.lit (.intLit 5), CwInput.lit (.intLit 7)] = .error .valueError :=
  c10_literal_only_fusion_error _ _ (by decide)

/-- C7 counterexample: `Projection.__init__` and `Column.__init__`
perform no membership check, so a projection of `t : {a: int}` on the
absent column `z` (and a column access of `z`) construct successfully;
the mismatch only surfaces later, when the schema query raises
`KeyError`.  This refutes the claim that the violation raises before the
node exists rather than at a later schema query. -/
theorem c7_init_unchecked :
    projInit tA ["z"] = .ok (.projection tA ["z"]) ∧
    schemaOf (.projection tA ["z"]) = .raised .keyError ∧
    columnInit tA "z" = .ok (.column tA "z") ∧
    schemaOf (.column tA "z") = .raised .keyError :=
  ⟨rfl, rfl, rfl, rfl⟩

/-- C7 amended: the membership checks live in `TableExpr.__getitem__`,
not in the node initializers: indexing with a string key builds a
`Column` when the key is one of the child's columns and raises
`ValueError` before any node is built otherwise, and indexing with a
column list builds a `Projection` when all names are among the child's
columns and raises `ValueError` otherwise; direct initializer calls are
unchecked, with the error surfacing at a later schema query. -/
theorem c7_getitem_checks (t : Expr) (cols : List String) (k : String) (ks : List String)
    (h : fieldsE t = .ok cols) :
    (k ∈ cols → getitemStr t k = .ok (.column t k)) ∧
    (k ∉ cols → getitemStr t k = .error .valueError) ∧
    ((∀ x ∈ ks, x ∈ cols) → getitemCols t ks = .ok (.projection t ks)) ∧
    ((¬ ∀ x ∈ ks, x ∈ cols) → getitemCols t ks = .error .valueError) := by
  refine ⟨fun hk => ?_, fun hk => ?_, fun hk => ?_, fun hk => ?_⟩
  · unfold getitemStr; rw [h, bindOk, if_pos hk]
  · unfold getitemStr; rw [h, bindOk, if_neg hk]
  · unfold getitemCols; rw [h, bindOk]
    have hb : ks.all (fun x => decide (x ∈ cols)) = true := by
      simp only [List.all_eq_true, decide_eq_true_eq]; exact hk
    rw [if_pos hb]
  · unfold getitemCols; rw [h, bindOk]
    have hb : ¬ ks.all (fun x => decide (x ∈ cols)) = true := by
      simp only [List.all_eq_true, decide_eq_true_eq]; exact hk
    rw [if_neg hb]

theorem c7_getitem_checks_w :
    ("a" ∈ ["a"] → getitemStr tA "a" = .ok (.column tA "a")) ∧
    ("a" ∉ ["a"] → getitemStr tA "a" = .error .valueError) ∧
    ((∀ x ∈ ["z"], x ∈ ["a"]) → getitemCols tA ["z"] = .ok (.projection tA ["z"])) ∧
    ((¬ ∀ x ∈ ["z"], x ∈ ["a"]) → getitemCols tA ["z"] = .error .valueError) :=
  c7_getitem_checks tA ["a"] "a" ["z"] rfl
